import Mathlib

/-!
Shallow embedding of the role-based authorization and queryset-scoping engine
of the SWENG894 Patient Monitoring System (a Django application).

The embedding translates `app/core/models.py`, `app/core/mixins.py` and
`app/core/admin.py`.  Querysets are embedded as Lean lists, model instances as
structures, and Django's save / permission methods as pure functions on those
lists.  Machine-level details that the engine never exercises (HTTP, templates,
SQL) are out of scope; Django's model-permission fallback (`User.has_perm`) is
embedded as a lookup in a per-user list of permission codenames, the way
`ModelBackend` resolves it for an active user.
-/

namespace PMS

/-- `django.contrib.auth.models.User`: the fields the engine reads.
`groups` holds the names of the auth groups the user belongs to, and
`modelPerms` the Django model-permission codenames granted to the user
(directly or through groups), which the default `ModelAdmin` permission
methods consult. -/
structure DjangoUser where
  id : Nat
  isSuperuser : Bool
  isStaff : Bool
  groups : List String
  modelPerms : List String
deriving Repr, DecidableEq

/-- `core.models.UserProfile`: role-and-credentials record, 1:1 with a user.
`id` is the primary key, `userId` the `user` foreign key. -/
structure UserProfile where
  id : Nat
  userId : Nat
  role : String
  department : String := ""
  licenseNumber : String := ""
  phone : String := ""
deriving Repr, DecidableEq

/-- A calendar date (year, month, day), as compared by `datetime.date`. -/
structure PyDate where
  year : Nat
  month : Nat
  day : Nat
deriving Repr, DecidableEq

/-- `core.models.Patient`: the fields the engine reads and writes.  The
`assigned_doctor` foreign key is declared by migration
`0003_add_patient_doctor_assignment` (nullable, SET_NULL, limited to
doctor-role profiles at the form layer); `models.py` itself carries no
validation for it.  The `user_profile` object is held inline, as on a Django
instance. -/
structure PatientRec where
  id : Nat
  userProfile : UserProfile
  medicalId : String
  assignedDoctor : Option UserProfile := none
  dateOfBirth : PyDate
  gender : String
  addressLine1 : String
  city : String
  state : String
  postalCode : String
  phonePrimary : String
deriving Repr, DecidableEq

/-- `core.models.EmergencyContact`: the fields the engine reads.  `patientId`
is the `patient` foreign key (Django compares foreign keys by primary key). -/
structure EmergencyContact where
  id : Nat
  patientId : Nat
  name : String
  relationship : String
  phonePrimary : String
  isPrimaryContact : Bool
deriving Repr, DecidableEq

/-- An authenticated admin request: `request.user` plus `request.user.profile`
(`none` when `hasattr(request.user, "profile")` is false). -/
structure Request where
  user : DjangoUser
  profile : Option UserProfile
deriving Repr, DecidableEq

/-- The closed role enumeration used by the mixins:
`["admin", "doctor", "nurse", "pharmacy", "admin"]`-style membership tests in
`mixins.py` all use this list. -/
def fiveRoles : List String := ["admin", "doctor", "nurse", "pharmacy", "patient"]

/-! ## Group / role synchronization (`UserProfile.assign_to_group`) -/

/-- The `role_to_group` dictionary of `UserProfile.assign_to_group`
(`models.py`), embedded as a partial map; `.get` on a missing key yields
`none`. -/
def roleToGroup : String → Option String
  | "patient" => some "Patients"
  | "doctor" => some "Doctors"
  | "nurse" => some "Nurses"
  | "pharmacy" => some "Pharmacy"
  | "admin" => some "Administrators"
  | _ => none

/-- `UserProfile.assign_to_group` (`models.py` lines 79-108): when the role
maps to a group name and `self.user_id` is truthy, remove the user from every
group, get-or-create the role's group, and add the user to it; otherwise do
nothing.  The group store is implicit: `get_or_create` always succeeds here,
matching the non-exceptional path (exceptions are swallowed by the method). -/
def assignToGroup (pr : UserProfile) (u : DjangoUser) : DjangoUser :=
  match roleToGroup pr.role with
  | some g => if pr.userId ≠ 0 then { u with groups := [g] } else u
  | none => u

/-- One role mutation followed by `assign_to_group`, iterated over a list of
new role values (the state machine of spec section 4.5). -/
def applyRoleMutations : UserProfile → DjangoUser → List String → UserProfile × DjangoUser
  | pr, u, [] => (pr, u)
  | pr, u, r :: rs =>
      let pr' := { pr with role := r }
      applyRoleMutations pr' (assignToGroup pr' u) rs

/-! ## Emergency-contact save (`EmergencyContact.save`) -/

/-- Django row upsert: `super().save()` updates the row with the instance's
primary key when it exists, otherwise inserts it. -/
def contactsUpsert (db : List EmergencyContact) (c : EmergencyContact) :
    List EmergencyContact :=
  if db.any (fun x => x.id = c.id) then
    db.map (fun x => if x.id = c.id then c else x)
  else
    db ++ [c]

/-- The row-level effect of the bulk `update(is_primary_contact=False)` in
`EmergencyContact.save`: a stored contact of the same patient that is primary
and is not the row being saved gets demoted, any other row is untouched. -/
def demoteOthers (c : EmergencyContact) (x : EmergencyContact) : EmergencyContact :=
  if x.patientId = c.patientId ∧ x.isPrimaryContact ∧ x.id ≠ c.id then
    { x with isPrimaryContact := false }
  else x

/-- `EmergencyContact.save` (`models.py` lines 455-462): when the instance is
flagged primary, first demote every other primary contact of the same patient
(`filter(patient=self.patient, is_primary_contact=True).exclude(pk=self.pk)
.update(is_primary_contact=False)`), then persist the instance. -/
def emergencyContactSave (db : List EmergencyContact) (c : EmergencyContact) :
    List EmergencyContact :=
  contactsUpsert (if c.isPrimaryContact then db.map (demoteOthers c) else db) c

/-- At most one of one patient's contacts is primary: any two stored contacts
of the same patient that are both primary are the same row. -/
def AtMostOnePrimary (db : List EmergencyContact) : Prop :=
  ∀ x ∈ db, ∀ y ∈ db, x.patientId = y.patientId →
    x.isPrimaryContact = true → y.isPrimaryContact = true → x = y

/-! ## Permission engine and queryset scoping (`mixins.py`, `admin.py`) -/

/-- The ownership relation an admin object exposes, mirroring the
`hasattr(obj, "user_profile") / hasattr(obj, "user")` dispatch in
`PatientAccessMixin.check_role_permission` and `filter_queryset_by_role`:
a Patient exposes `user_profile` (compared by profile primary key), a
UserProfile exposes `user` (compared against `request.user`), anything else
exposes neither. -/
inductive OwnerRel where
  | viaUserProfile (profileId : Nat)
  | viaUser (userId : Nat)
  | noRel
deriving Repr, DecidableEq

/-- `request.user.has_perm(codename)` as resolved by Django's `ModelBackend`
for an active user: superusers hold every permission, other users hold the
codenames granted to them directly or through their groups. -/
def djangoHasPerm (u : DjangoUser) (codename : String) : Bool :=
  u.isSuperuser || u.modelPerms.contains codename

/-- Django's default `ModelAdmin.has_<action>_permission`, the `super()`
fallback the mixins defer to for users whose role is outside the closed
enumeration: `view` is granted by either the view or the change model
permission, other actions by their own codename. -/
def modelAdminDefaultPermission (u : DjangoUser) (model action : String) : Bool :=
  if action = "view" then
    djangoHasPerm u ("view_" ++ model) || djangoHasPerm u ("change_" ++ model)
  else
    djangoHasPerm u (action ++ "_" ++ model)

/-- `PatientAccessMixin.check_role_permission` (`mixins.py` lines 133-157),
with the base `RoleBasedAdminMixin.check_role_permission` (profile presence)
inlined as the first match: patients are denied `delete` outright, are
checked for ownership against a concrete object, and are allowed otherwise;
every other role falls through to `return True`. -/
def patientAccessCheckRolePermission (req : Request) (obj : Option OwnerRel)
    (action : String) : Bool :=
  match req.profile with
  | none => false
  | some pr =>
      if pr.role = "patient" then
        if action = "delete" then false
        else
          match obj with
          | some (.viaUserProfile pid) => pid == pr.id
          | some (.viaUser uid) => uid == req.user.id
          | some .noRel => false
          | none => true
      else true

/-- The shared body of `RoleBasedAdminMixin.has_view_permission` /
`has_change_permission` / `has_add_permission` / `has_delete_permission`
(`mixins.py` lines 33-103, four textually identical methods differing only in
the action string): superusers allowed, users without a profile denied, users
with one of the five roles dispatched to `check_role_permission`, all other
role values deferred to Django's default permission check. -/
def roleBasedHasPermission
    (checkRole : Request → Option OwnerRel → String → Bool) (model : String)
    (req : Request) (obj : Option OwnerRel) (action : String) : Bool :=
  if req.user.isSuperuser then true
  else
    match req.profile with
    | none => false
    | some pr =>
        if fiveRoles.contains pr.role then checkRole req obj action
        else modelAdminDefaultPermission req.user model action

/-- `PatientAccessMixin.has_delete_permission` (`mixins.py` lines 172-183):
superusers and admin-role users allowed, everyone else deferred to the
role-based chain with action `delete`. -/
def patientAccessHasDeletePermission (model : String) (req : Request)
    (obj : Option OwnerRel) : Bool :=
  if req.user.isSuperuser then true
  else if (match req.profile with | some pr => pr.role == "admin" | none => false) then
    true
  else
    roleBasedHasPermission patientAccessCheckRolePermission model req obj "delete"

/-- The ownership relation a `Patient` object exposes (`user_profile`,
compared by the profile's primary key). -/
def patientObjRel (p : PatientRec) : OwnerRel := .viaUserProfile p.userProfile.id

/-- The ownership relation a `UserProfile` object exposes (`user`, compared
against `request.user`). -/
def profileObjRel (q : UserProfile) : OwnerRel := .viaUser q.userId

/-- `PatientAdmin.has_view_permission`, via `PatientAccessMixin` /
`RoleBasedAdminMixin` (the admin defines no override for view). -/
def patientAdminHasViewPermission (req : Request) (obj : Option OwnerRel) : Bool :=
  roleBasedHasPermission patientAccessCheckRolePermission "patient" req obj "view"

/-- `PatientAdmin.has_delete_permission` (`admin.py` lines 632-635): delegates
to `PatientAccessMixin.has_delete_permission`. -/
def patientAdminHasDeletePermission (req : Request) (obj : Option OwnerRel) : Bool :=
  patientAccessHasDeletePermission "patient" req obj

/-- `UserProfileAdmin.has_view_permission`, via `PatientAccessMixin` /
`RoleBasedAdminMixin` (the admin overrides add/delete but not view). -/
def userProfileAdminHasViewPermission (req : Request) (obj : Option OwnerRel) : Bool :=
  roleBasedHasPermission patientAccessCheckRolePermission "userprofile" req obj "view"

/-- `EmergencyContactAdmin` uses plain `admin.ModelAdmin` with no mixin, so
its object-level view check is Django's default model-permission test. -/
def ecAdminHasViewPermission (req : Request) : Bool :=
  modelAdminDefaultPermission req.user "emergencycontact" "view"

/-- `PatientAdmin.get_queryset` (`admin.py` lines 572-598): superusers and
admins see everything, patients only their own record, medical staff
(doctor, nurse, pharmacy) all patients, any other role nothing. -/
def patientAdminGetQueryset (req : Request) (db : List PatientRec) :
    List PatientRec :=
  if req.user.isSuperuser then db
  else
    match req.profile with
    | none => []
    | some pr =>
        if pr.role = "admin" then db
        else if pr.role = "patient" then
          db.filter (fun p => p.userProfile.id == pr.id)
        else if ["doctor", "nurse", "pharmacy"].contains pr.role then db
        else []

/-- `EmergencyContactAdmin.get_queryset` (`admin.py` lines 668-694): same
shape as `PatientAdmin.get_queryset`, with the patient case filtering by
`patient__user_profile` (a join through the contact's patient row). -/
def ecAdminGetQueryset (req : Request) (contacts : List EmergencyContact)
    (patients : List PatientRec) : List EmergencyContact :=
  if req.user.isSuperuser then contacts
  else
    match req.profile with
    | none => []
    | some pr =>
        if pr.role = "admin" then contacts
        else if pr.role = "patient" then
          contacts.filter (fun c =>
            match patients.find? (fun p => p.id == c.patientId) with
            | some p => p.userProfile.id == pr.id
            | none => false)
        else if ["doctor", "nurse", "pharmacy"].contains pr.role then contacts
        else []

/-- `UserProfileAdmin.get_queryset` (`admin.py` lines 273-288): superusers and
admins see every profile, any other profile-holder only their own row, users
without a profile nothing. -/
def userProfileAdminGetQueryset (req : Request) (db : List UserProfile) :
    List UserProfile :=
  if req.user.isSuperuser then db
  else
    match req.profile with
    | none => []
    | some pr =>
        if pr.role = "admin" then db
        else db.filter (fun q => q.userId == req.user.id)

/-! ## Calendar dates (`datetime.date`) -/

/-- Gregorian leap-year rule, as `calendar.isleap` / `datetime` use it. -/
def isLeapYear (y : Nat) : Bool :=
  y % 4 = 0 && (y % 100 ≠ 0 || y % 400 = 0)

/-- Number of days in month `m` of year `y`. -/
def daysInMonth (y m : Nat) : Nat :=
  if m = 2 then (if isLeapYear y then 29 else 28)
  else if m = 4 ∨ m = 6 ∨ m = 9 ∨ m = 11 then 30
  else 31

/-- Days in year `y` strictly before month `m`. -/
def daysBeforeMonth (y m : Nat) : Nat :=
  (((List.range (m - 1)).map fun i => daysInMonth y (i + 1))).sum

/-- Days before January 1 of year `y` in the proleptic Gregorian calendar
(`datetime`'s `_days_before_year`). -/
def daysBeforeYear (y : Nat) : Nat :=
  (y - 1) * 365 + (y - 1) / 4 - (y - 1) / 100 + (y - 1) / 400

/-- `datetime.date.toordinal()`: the proleptic Gregorian ordinal, so that
`(a - b).days = a.toordinal() - b.toordinal()`. -/
def dateOrdinal (d : PyDate) : Nat :=
  daysBeforeYear d.year + daysBeforeMonth d.year d.month + d.day

/-- `datetime.date` comparison: lexicographic on (year, month, day). -/
def dateLt (a b : PyDate) : Bool :=
  decide (a.year < b.year ∨
    (a.year = b.year ∧ (a.month < b.month ∨ (a.month = b.month ∧ a.day < b.day))))

/-- `Patient.clean_date_of_birth` (`models.py` lines 337-345): reject a date
of birth in the future, and reject an age above 120 years.  The source
compares `(today - dob).days / 365.25 > 120` in floating point; since
`365.25` and `120 * 365.25 = 43830` are exactly representable doubles, the
comparison is exactly `days > 43830` for the integer day counts involved. -/
def cleanDateOfBirth (dob today : PyDate) : Except String Unit :=
  if dateLt today dob then .error "Date of birth cannot be in the future."
  else if dateOrdinal today - dateOrdinal dob > 43830 then
    .error "Date of birth indicates an unrealistic age."
  else .ok ()

/-! ## Decimal formatting and parsing (Python `str`/`int`/`%06d`) -/

/-- The ASCII character of a decimal digit, as CPython emits it. -/
def pyDigitChar (d : Nat) : Char := Char.ofNat (48 + d)

/-- Fuel-driven implementation of CPython's decimal rendering of a
non-negative integer (most significant digit first).  With `fuel ≥ n` the
fuel is never exhausted (see `decimalCharsAux_fuel`). -/
def decimalCharsAux : Nat → Nat → List Char
  | 0, n => [pyDigitChar n]
  | fuel + 1, n =>
      if n < 10 then [pyDigitChar n]
      else decimalCharsAux fuel (n / 10) ++ [pyDigitChar (n % 10)]

/-- `str(n)` for a natural number, as a character list. -/
def decimalChars (n : Nat) : List Char := decimalCharsAux n n

/-- `f"{n:06d}"`: `str(n)` left-padded with zeros to at least six characters,
as a character list. -/
def pad6 (n : Nat) : List Char :=
  List.replicate (6 - (decimalChars n).length) '0' ++ decimalChars n

/-- `f"PMR-{year}-{seq:06d}"`, the medical-id format of
`Patient.generate_medical_id`. -/
def mkMedicalId (year seq : Nat) : String :=
  ⟨"PMR-".data ++ decimalChars year ++ '-' :: pad6 seq⟩

/-- Fixed-width big-endian decimal rendering: the `k` low decimal digits of
`n`, most significant first.  For `n < 10^k` this is the zero-padded form that
`%0kd` produces; it is the normal form the order-preservation proofs below
work with. -/
def digitsBE : Nat → Nat → List Char
  | 0, _ => []
  | k + 1, n => digitsBE k (n / 10) ++ [pyDigitChar (n % 10)]

/-- `str.startswith` on character lists. -/
def charsHavePref : List Char → List Char → Bool
  | [], _ => true
  | _ :: _, [] => false
  | p :: ps, s :: ss => p == s && charsHavePref ps ss

/-- `medical_id.split("-")` on the character list: split on every dash. -/
def splitDash : List Char → List (List Char)
  | [] => [[]]
  | c :: cs =>
      if c = '-' then [] :: splitDash cs
      else
        match splitDash cs with
        | [] => [[c]]
        | h :: t => (c :: h) :: t

/-- `int(s)` for a string of decimal digits. -/
def digitsVal (l : List Char) : Nat :=
  l.foldl (fun acc c => 10 * acc + (c.toNat - 48)) 0

/-- `order_by("-medical_id").first()`: the maximum of a list of strings under
lexicographic string order (SQL/Python string collation on these ASCII ids),
`none` on an empty queryset. -/
def maxString : List String → Option String
  | [] => none
  | s :: rest =>
      match maxString rest with
      | none => some s
      | some t => some (if t < s then s else t)

/-- `Patient.generate_medical_id` (`models.py` lines 316-335): take the
largest existing `medical_id` with this year's `PMR-<year>-` front, parse its
final dash-separated field as the sequence number and add one, or start at 1
when the year has no patients; render as `PMR-<year>-<seq:06d>`. -/
def generateMedicalId (currentYear : Nat) (db : List PatientRec) : String :=
  match maxString ((db.map PatientRec.medicalId).filter
      (fun s => charsHavePref ("PMR-".data ++ decimalChars currentYear ++ ['-']) s.data)) with
  | none => mkMedicalId currentYear 1
  | some lastId =>
      mkMedicalId currentYear (digitsVal ((splitDash lastId.data).getLastD []) + 1)

/-! ## Model save pipelines (`models.py`) -/

/-- The exception a model save can raise
(`django.core.exceptions.ValidationError`). -/
inductive PMSError where
  | validation (msg : String)
deriving Repr, DecidableEq

instance {ε α : Type} [DecidableEq ε] [DecidableEq α] : DecidableEq (Except ε α) :=
  fun x y =>
    match x, y with
    | .ok a, .ok b =>
        if h : a = b then .isTrue (h ▸ rfl) else .isFalse (fun hh => h (by injection hh))
    | .error a, .error b =>
        if h : a = b then .isTrue (h ▸ rfl) else .isFalse (fun hh => h (by injection hh))
    | .ok _, .error _ => .isFalse (fun hh => by injection hh)
    | .error _, .ok _ => .isFalse (fun hh => by injection hh)

/-- Django row upsert for Patient rows (`super().save()`). -/
def patientsUpsert (db : List PatientRec) (p : PatientRec) : List PatientRec :=
  if db.any (fun x => x.id = p.id) then
    db.map (fun x => if x.id = p.id then p else x)
  else db ++ [p]

/-- `Patient.save` (`models.py` lines 300-314): generate the medical id when
empty, reject a non-patient `user_profile` role, validate the date of birth,
then persist.  The method performs no check whatsoever on `assigned_doctor`.
An error leaves the stored rows unchanged (the exception is raised before
`super().save()`). -/
def patientSave (today : PyDate) (db : List PatientRec) (p : PatientRec) :
    Except PMSError (List PatientRec) :=
  let p' := if p.medicalId = "" then
      { p with medicalId := generateMedicalId today.year db }
    else p
  if p'.userProfile.role ≠ "patient" then
    .error (.validation
      "Patient records can only be linked to UserProfiles with role='patient'")
  else
    match cleanDateOfBirth p'.dateOfBirth today with
    | .error e => .error (.validation e)
    | .ok () => .ok (patientsUpsert db p')

/-- `UserProfile.clean` (`models.py` lines 49-60): only when the instance is
being added (`self._state.adding`) and the role is medical staff, an empty
license number raises a `ValidationError` keyed on `license_number`.
`hasattr(self, "_state")` is always true on a model instance. -/
def userProfileClean (pr : UserProfile) (adding : Bool) :
    Except (String × String) Unit :=
  if (pr.role = "doctor" ∨ pr.role = "nurse" ∨ pr.role = "pharmacy") ∧ adding ∧
      pr.licenseNumber = "" then
    .error ("license_number", "License number is required for medical staff.")
  else .ok ()

/-- `CustomUserCreationForm.clean` (`admin.py` lines 57-84): an empty role is
an error; the patient role skips all credential validation; otherwise an
empty license number is an error for medical staff and an empty department an
error for doctors and nurses. -/
def customUserCreationFormClean (role department licenseNumber : String) :
    Except (List (String × String)) Unit :=
  if role = "" then .error [("__all__", "Role selection is required.")]
  else if role = "patient" then .ok ()
  else
    let errs :=
      (if ["doctor", "nurse", "pharmacy"].contains role ∧ licenseNumber = "" then
        [("license_number", "License number is required for medical staff.")]
      else []) ++
      (if ["doctor", "nurse"].contains role ∧ department = "" then
        [("department", "Department is required for doctors and nurses.")]
      else [])
    if errs = [] then .ok () else .error errs

/-- The persisted application state a `UserProfile.save` touches. -/
structure SysState where
  users : List DjangoUser
  profiles : List UserProfile
  patients : List PatientRec
deriving Repr, DecidableEq

/-- Apply `f` to the user with primary key `uid` (`self.user.save()`). -/
def usersUpdate (users : List DjangoUser) (uid : Nat) (f : DjangoUser → DjangoUser) :
    List DjangoUser :=
  users.map (fun u => if u.id = uid then f u else u)

/-- Django row upsert for UserProfile rows. -/
def profilesUpsert (db : List UserProfile) (pr : UserProfile) : List UserProfile :=
  if db.any (fun x => x.id = pr.id) then
    db.map (fun x => if x.id = pr.id then pr else x)
  else db ++ [pr]

/-- The next auto primary key for a Patient insert. -/
def freshPatientId (db : List PatientRec) : Nat :=
  (db.map PatientRec.id).foldr max 0 + 1

/-- `UserProfile.ensure_patient_record` (`models.py` lines 162-187): for a
patient-role profile without a linked Patient row, create one with
placeholder data through `Patient.objects.create` (which runs
`Patient.save`); any exception is swallowed (`except Exception: pass`). -/
def ensurePatientRecord (today : PyDate) (pr : UserProfile)
    (patients : List PatientRec) : List PatientRec :=
  if pr.role = "patient" then
    if patients.any (fun p => p.userProfile.id = pr.id) then patients
    else
      match patientSave today patients
          ⟨freshPatientId patients, pr, "", none, ⟨1990, 1, 1⟩, "O",
            "Please update your address", "Please update", "Please update",
            "00000", (if pr.phone = "" then "000-000-0000" else pr.phone)⟩ with
      | .ok db' => db'
      | .error _ => patients
  else patients

/-- `UserProfile.save` (`models.py` lines 62-77): persist the profile row,
run `assign_to_group`, and — for the patient role only — auto-create the
linked Patient record and force `user.is_staff = True` when it was false.
The method itself performs no validation. -/
def userProfileSave (today : PyDate) (st : SysState) (pr : UserProfile) : SysState :=
  let st1 : SysState := { st with profiles := profilesUpsert st.profiles pr }
  let st2 : SysState :=
    { st1 with users := usersUpdate st1.users pr.userId (assignToGroup pr) }
  if pr.role = "patient" then
    let st3 : SysState := { st2 with patients := ensurePatientRecord today pr st2.patients }
    let setStaff := fun (u : DjangoUser) =>
      if u.isStaff then u else { u with isStaff := true }
    { st3 with users := usersUpdate st3.users pr.userId setStaff }
  else st2

/-! ## Theorems -/

theorem mem_contactsUpsert {db : List EmergencyContact} {c z : EmergencyContact}
    (hz : z ∈ contactsUpsert db c) : z = c ∨ (z ∈ db ∧ z.id ≠ c.id) := by
  unfold contactsUpsert at hz
  by_cases h : db.any (fun x => x.id = c.id)
  · simp only [h, if_pos] at hz
    rcases List.mem_map.mp hz with ⟨y, hy, hyz⟩
    by_cases hid : y.id = c.id
    · left; simpa [hid] using hyz.symm
    · right; simp only [hid, if_neg, if_false] at hyz
      exact hyz ▸ ⟨hy, hid⟩
  · simp only [h, if_neg, Bool.false_eq_true, ite_false] at hz
    rcases List.mem_append.mp hz with hz | hz
    · right
      refine ⟨hz, fun hid => ?_⟩
      exact h (List.any_eq_true.mpr ⟨z, hz, by simp [hid]⟩)
    · left; simpa using hz

theorem self_mem_contactsUpsert (db : List EmergencyContact) (c : EmergencyContact) :
    c ∈ contactsUpsert db c := by
  unfold contactsUpsert
  by_cases h : db.any (fun x => x.id = c.id)
  · simp only [h, if_pos]
    rcases List.any_eq_true.mp h with ⟨y, hy, hyc⟩
    exact List.mem_map.mpr ⟨y, hy, by simp at hyc; simp [hyc]⟩
  · simp [h]

theorem mem_demoted_primary {db : List EmergencyContact} {c z : EmergencyContact}
    (hz : z ∈ db.map (demoteOthers c)) (hp : z.isPrimaryContact = true) :
    z ∈ db ∧ (z.patientId = c.patientId → z.id = c.id) := by
  rcases List.mem_map.mp hz with ⟨w, hw, hwz⟩
  unfold demoteOthers at hwz
  by_cases hc : w.patientId = c.patientId ∧ w.isPrimaryContact ∧ w.id ≠ c.id
  · rw [if_pos hc] at hwz
    rw [← hwz] at hp
    simp at hp
  · rw [if_neg hc] at hwz
    subst hwz
    refine ⟨hw, fun hpid => ?_⟩
    by_contra hid
    exact hc ⟨hpid, by simp [hp], hid⟩

theorem atMostOnePrimary_save {db : List EmergencyContact} (c : EmergencyContact)
    (h : AtMostOnePrimary db) : AtMostOnePrimary (emergencyContactSave db c) := by
  intro x hx y hy hpid hxp hyp
  unfold emergencyContactSave at hx hy
  by_cases hcp : c.isPrimaryContact
  · simp only [hcp, if_pos] at hx hy
    rcases mem_contactsUpsert hx with hx' | ⟨hx', hxid⟩ <;>
      rcases mem_contactsUpsert hy with hy' | ⟨hy', hyid⟩
    · rw [hx', hy']
    · subst hx'
      rcases mem_demoted_primary hy' hyp with ⟨_, hyid'⟩
      exact absurd (hyid' hpid.symm) hyid
    · subst hy'
      rcases mem_demoted_primary hx' hxp with ⟨_, hxid'⟩
      exact absurd (hxid' hpid) hxid
    · rcases mem_demoted_primary hx' hxp with ⟨hxdb, _⟩
      rcases mem_demoted_primary hy' hyp with ⟨hydb, _⟩
      exact h x hxdb y hydb hpid hxp hyp
  · simp only [hcp, Bool.false_eq_true, if_neg, ite_false] at hx hy
    rcases mem_contactsUpsert hx with hx' | ⟨hx', _⟩
    · exact absurd (hx' ▸ hxp) (by simpa using hcp)
    rcases mem_contactsUpsert hy with hy' | ⟨hy', _⟩
    · exact absurd (hy' ▸ hyp) (by simpa using hcp)
    exact h x hx' y hy' hpid hxp hyp

theorem atMostOnePrimary_foldl (ops : List EmergencyContact) :
    ∀ db : List EmergencyContact, AtMostOnePrimary db →
      AtMostOnePrimary (ops.foldl emergencyContactSave db) := by
  induction ops with
  | nil => intro db h; exact h
  | cons c rest ih =>
      intro db h
      exact ih (emergencyContactSave db c) (atMostOnePrimary_save c h)

/-- Claim C1 fails on the code: a doctor-role principal's UserProfile listing
contains only their own row, yet `has_view_permission` on another user's
profile returns allow (`check_role_permission` falls through to `return True`
for every non-patient role), so scope membership and the object-level view
decision disagree. -/
theorem scope_authorize_equivalence_counterexample :
    ((⟨11, 3, "patient", "", "", ""⟩ : UserProfile) ∉
      userProfileAdminGetQueryset
        ⟨⟨2, false, true, ["Doctors"], []⟩, some ⟨10, 2, "doctor", "Cardiology", "MD123", ""⟩⟩
        [⟨10, 2, "doctor", "Cardiology", "MD123", ""⟩, ⟨11, 3, "patient", "", "", ""⟩]) ∧
    userProfileAdminHasViewPermission
      ⟨⟨2, false, true, ["Doctors"], []⟩, some ⟨10, 2, "doctor", "Cardiology", "MD123", ""⟩⟩
      (some (profileObjRel ⟨11, 3, "patient", "", "", ""⟩)) = true := by
  decide

/-- Claim C1, amended: the scope/authorize-view equivalence holds for the
Patient collection for all five roles and for superusers; for the UserProfile
collection it holds for superusers and for patient- and admin-role
principals, but not for medical-staff roles (see the counterexample); the
EmergencyContact admin's object-level check is Django's role-independent
model-permission fallback, so no such equivalence is stated for it. -/
theorem scope_authorize_equivalence_amended :
    (∀ (req : Request) (db : List PatientRec) (r : PatientRec),
      r ∈ db →
      (req.user.isSuperuser = true ∨
        ∃ pr, req.profile = some pr ∧ pr.role ∈ fiveRoles) →
      (r ∈ patientAdminGetQueryset req db ↔
        patientAdminHasViewPermission req (some (patientObjRel r)) = true)) ∧
    (∀ (req : Request) (db : List UserProfile) (q : UserProfile),
      q ∈ db →
      (req.user.isSuperuser = true ∨
        ∃ pr, req.profile = some pr ∧ (pr.role = "patient" ∨ pr.role = "admin")) →
      (q ∈ userProfileAdminGetQueryset req db ↔
        userProfileAdminHasViewPermission req (some (profileObjRel q)) = true)) := by
  constructor
  · intro req db r hr hcase
    unfold patientAdminGetQueryset patientAdminHasViewPermission
      roleBasedHasPermission patientAccessCheckRolePermission patientObjRel
    by_cases hsu : req.user.isSuperuser
    · simp [hsu, hr]
    · rcases hcase with hsu' | ⟨pr, hpr, hrole⟩
      · exact absurd hsu' (by simpa using hsu)
      · simp only [fiveRoles, List.mem_cons, List.mem_singleton] at hrole
        rcases hrole with h5 | h5 | h5 | h5 | h5 | h5 <;>
          simp_all [List.mem_filter, fiveRoles]
  · intro req db q hq hcase
    unfold userProfileAdminGetQueryset userProfileAdminHasViewPermission
      roleBasedHasPermission patientAccessCheckRolePermission profileObjRel
    by_cases hsu : req.user.isSuperuser
    · simp [hsu, hq]
    · rcases hcase with hsu' | ⟨pr, hpr, hrole⟩
      · exact absurd hsu' (by simpa using hsu)
      · rcases hrole with h5 | h5 <;>
          simp_all [List.mem_filter, fiveRoles]

/-- Witness for `scope_authorize_equivalence_amended`: a concrete patient
principal, their own Patient row, and their own profile row. -/
theorem scope_authorize_equivalence_amended_witness :
    ((⟨1, ⟨10, 2, "patient", "", "", ""⟩, "PMR-2025-000001", none, ⟨1990, 1, 1⟩, "O",
        "a", "c", "s", "00000", "+15550000000"⟩ : PatientRec) ∈
      patientAdminGetQueryset
        ⟨⟨2, false, true, ["Patients"], []⟩, some ⟨10, 2, "patient", "", "", ""⟩⟩
        [⟨1, ⟨10, 2, "patient", "", "", ""⟩, "PMR-2025-000001", none, ⟨1990, 1, 1⟩, "O",
          "a", "c", "s", "00000", "+15550000000"⟩] ↔
      patientAdminHasViewPermission
        ⟨⟨2, false, true, ["Patients"], []⟩, some ⟨10, 2, "patient", "", "", ""⟩⟩
        (some (patientObjRel ⟨1, ⟨10, 2, "patient", "", "", ""⟩, "PMR-2025-000001", none,
          ⟨1990, 1, 1⟩, "O", "a", "c", "s", "00000", "+15550000000"⟩)) = true) ∧
    ((⟨10, 2, "patient", "", "", ""⟩ : UserProfile) ∈
      userProfileAdminGetQueryset
        ⟨⟨2, false, true, ["Patients"], []⟩, some ⟨10, 2, "patient", "", "", ""⟩⟩
        [⟨10, 2, "patient", "", "", ""⟩] ↔
      userProfileAdminHasViewPermission
        ⟨⟨2, false, true, ["Patients"], []⟩, some ⟨10, 2, "patient", "", "", ""⟩⟩
        (some (profileObjRel ⟨10, 2, "patient", "", "", ""⟩)) = true) :=
  ⟨scope_authorize_equivalence_amended.1
      ⟨⟨2, false, true, ["Patients"], []⟩, some ⟨10, 2, "patient", "", "", ""⟩⟩
      [⟨1, ⟨10, 2, "patient", "", "", ""⟩, "PMR-2025-000001", none, ⟨1990, 1, 1⟩, "O",
        "a", "c", "s", "00000", "+15550000000"⟩]
      ⟨1, ⟨10, 2, "patient", "", "", ""⟩, "PMR-2025-000001", none, ⟨1990, 1, 1⟩, "O",
        "a", "c", "s", "00000", "+15550000000"⟩
      (by decide) (Or.inr ⟨⟨10, 2, "patient", "", "", ""⟩, rfl, by decide⟩),
    scope_authorize_equivalence_amended.2
      ⟨⟨2, false, true, ["Patients"], []⟩, some ⟨10, 2, "patient", "", "", ""⟩⟩
      [⟨10, 2, "patient", "", "", ""⟩] ⟨10, 2, "patient", "", "", ""⟩
      (by decide) (Or.inr ⟨⟨10, 2, "patient", "", "", ""⟩, rfl, Or.inl rfl⟩)⟩

/-- Claim C2 evaluated at its failing input: in `PatientAdmin.get_queryset`
as committed, a doctor-role principal's queryset contains a Patient assigned
to a different doctor (the medical-staff branch returns the unfiltered
queryset), although migration 0003 and the repository's own tests
(`test_permissions.py::test_doctor_queryset_filtering`) require doctors to
see only their assigned patients. -/
theorem doctor_scope_unfiltered_at_assigned_input :
    (⟨2, ⟨13, 5, "patient", "", "", ""⟩, "PMR-2025-000002",
        some ⟨12, 4, "doctor", "Neurology", "MD789", ""⟩, ⟨1991, 2, 2⟩, "F",
        "a2", "c2", "s2", "11111", "+15550001112"⟩ : PatientRec) ∈
      patientAdminGetQueryset
        ⟨⟨2, false, true, ["Doctors"], []⟩,
          some ⟨10, 2, "doctor", "Cardiology", "MD123", ""⟩⟩
        [⟨1, ⟨11, 3, "patient", "", "", ""⟩, "PMR-2025-000001",
            some ⟨10, 2, "doctor", "Cardiology", "MD123", ""⟩, ⟨1990, 1, 1⟩, "M",
            "a1", "c1", "s1", "00000", "+15550001111"⟩,
          ⟨2, ⟨13, 5, "patient", "", "", ""⟩, "PMR-2025-000002",
            some ⟨12, 4, "doctor", "Neurology", "MD789", ""⟩, ⟨1991, 2, 2⟩, "F",
            "a2", "c2", "s2", "11111", "+15550001112"⟩] ∧
    (⟨2, ⟨13, 5, "patient", "", "", ""⟩, "PMR-2025-000002",
        some ⟨12, 4, "doctor", "Neurology", "MD789", ""⟩, ⟨1991, 2, 2⟩, "F",
        "a2", "c2", "s2", "11111", "+15550001112"⟩ : PatientRec).assignedDoctor ≠
      some ⟨10, 2, "doctor", "Cardiology", "MD123", ""⟩ := by
  decide

/-- Claim C5 fails on the code: a doctor-role principal (neither admin role
nor superuser) receives delete-allow on a Patient record, because
`check_role_permission` falls through to `return True` for every non-patient
role; so it is not true that only admin-role principals or superusers may
delete Patient records. -/
theorem patient_delete_policy_counterexample :
    patientAdminHasDeletePermission
        ⟨⟨2, false, true, ["Doctors"], []⟩,
          some ⟨10, 2, "doctor", "Cardiology", "MD123", ""⟩⟩
        (some (OwnerRel.viaUserProfile 11)) = true ∧
      (⟨10, 2, "doctor", "Cardiology", "MD123", ""⟩ : UserProfile).role ≠ "admin" ∧
      (⟨2, false, true, ["Doctors"], []⟩ : DjangoUser).isSuperuser = false := by
  decide

/-- Claim C5, amended: patient-role principals are always denied delete on
Patient records, including their own; admin-role principals and superusers
are allowed; but the object-level check also grants delete to the
doctor, nurse and pharmacy roles, so admin/superuser are not the only
principals with delete permission. -/
theorem patient_delete_policy_amended (req : Request) (obj : Option OwnerRel)
    (pr : UserProfile) (hpr : req.profile = some pr) :
    (pr.role = "patient" → req.user.isSuperuser = false →
      patientAdminHasDeletePermission req obj = false) ∧
    (req.user.isSuperuser = true → patientAdminHasDeletePermission req obj = true) ∧
    (pr.role = "admin" → patientAdminHasDeletePermission req obj = true) ∧
    (pr.role ∈ ["doctor", "nurse", "pharmacy"] →
      patientAdminHasDeletePermission req obj = true) := by
  unfold patientAdminHasDeletePermission patientAccessHasDeletePermission
    roleBasedHasPermission patientAccessCheckRolePermission
  refine ⟨fun hrole hsu => ?_, fun hsu => ?_, fun hrole => ?_, fun hrole => ?_⟩
  · simp [hpr, hrole, hsu, fiveRoles]
  · simp [hsu]
  · simp [hpr, hrole]
  · simp only [List.mem_cons, List.mem_singleton] at hrole
    rcases hrole with h3 | h3 | h3 <;> simp_all [fiveRoles]

/-- Witness for `patient_delete_policy_amended`: a patient-role principal is
denied delete on their own Patient record. -/
theorem patient_delete_policy_amended_witness :
    ((⟨10, 2, "patient", "", "", ""⟩ : UserProfile).role = "patient" →
      (⟨2, false, true, ["Patients"], []⟩ : DjangoUser).isSuperuser = false →
      patientAdminHasDeletePermission
        ⟨⟨2, false, true, ["Patients"], []⟩, some ⟨10, 2, "patient", "", "", ""⟩⟩
        (some (OwnerRel.viaUserProfile 10)) = false) ∧
    ((⟨2, false, true, ["Patients"], []⟩ : DjangoUser).isSuperuser = true →
      patientAdminHasDeletePermission
        ⟨⟨2, false, true, ["Patients"], []⟩, some ⟨10, 2, "patient", "", "", ""⟩⟩
        (some (OwnerRel.viaUserProfile 10)) = true) ∧
    ((⟨10, 2, "patient", "", "", ""⟩ : UserProfile).role = "admin" →
      patientAdminHasDeletePermission
        ⟨⟨2, false, true, ["Patients"], []⟩, some ⟨10, 2, "patient", "", "", ""⟩⟩
        (some (OwnerRel.viaUserProfile 10)) = true) ∧
    ((⟨10, 2, "patient", "", "", ""⟩ : UserProfile).role ∈
        ["doctor", "nurse", "pharmacy"] →
      patientAdminHasDeletePermission
        ⟨⟨2, false, true, ["Patients"], []⟩, some ⟨10, 2, "patient", "", "", ""⟩⟩
        (some (OwnerRel.viaUserProfile 10)) = true) :=
  patient_delete_policy_amended
    ⟨⟨2, false, true, ["Patients"], []⟩, some ⟨10, 2, "patient", "", "", ""⟩⟩
    (some (OwnerRel.viaUserProfile 10)) ⟨10, 2, "patient", "", "", ""⟩ rfl

/-- Claim C6 fails on the code: no `UnknownRole` exception exists anywhere in
the codebase; a principal whose role is outside the closed enumeration is
routed to Django's default model-permission check, which returns allow when
the user holds the `view_patient` permission — an allow derived from another
permission source — and the principal's own profile row still appears in the
UserProfile listing, so the scoped listings are not all empty either. -/
theorem unknown_role_counterexample :
    patientAdminHasViewPermission
        ⟨⟨7, false, true, [], ["view_patient"]⟩, some ⟨20, 7, "ghost", "", "", ""⟩⟩
        (some (OwnerRel.viaUserProfile 99)) = true ∧
      ("ghost" ∈ fiveRoles → False) ∧
      (⟨20, 7, "ghost", "", "", ""⟩ : UserProfile) ∈
        userProfileAdminGetQueryset
          ⟨⟨7, false, true, [], ["view_patient"]⟩, some ⟨20, 7, "ghost", "", "", ""⟩⟩
          [⟨20, 7, "ghost", "", "", ""⟩] := by
  decide

/-- Claim C6, amended: a role outside the closed enumeration raises nothing;
the Patient and EmergencyContact listings are empty for such a principal and
the UserProfile listing is filtered to the principal's own rows, while the
object-level permission checks fall back to Django's model-permission system
(which may allow). -/
theorem unknown_role_amended (req : Request) (pr : UserProfile)
    (hpr : req.profile = some pr) (hrole : pr.role ∉ fiveRoles)
    (hsu : req.user.isSuperuser = false)
    (patients : List PatientRec) (contacts : List EmergencyContact)
    (profiles : List UserProfile) (obj : Option OwnerRel) :
    patientAdminGetQueryset req patients = [] ∧
    ecAdminGetQueryset req contacts patients = [] ∧
    userProfileAdminGetQueryset req profiles =
      profiles.filter (fun q => q.userId == req.user.id) ∧
    patientAdminHasViewPermission req obj =
      modelAdminDefaultPermission req.user "patient" "view" := by
  simp only [fiveRoles, List.mem_cons, List.mem_singleton, not_or] at hrole
  obtain ⟨hadm, hdoc, hnur, hpha, hpat⟩ := hrole
  unfold patientAdminGetQueryset ecAdminGetQueryset userProfileAdminGetQueryset
    patientAdminHasViewPermission roleBasedHasPermission
  simp [hpr, hsu, hadm, hdoc, hnur, hpha, hpat, fiveRoles]

/-- Witness for `unknown_role_amended`: a concrete principal with role
`"ghost"` holding the `view_patient` model permission. -/
theorem unknown_role_amended_witness :
    patientAdminGetQueryset
        ⟨⟨7, false, true, [], ["view_patient"]⟩, some ⟨20, 7, "ghost", "", "", ""⟩⟩
        [] = [] ∧
    ecAdminGetQueryset
        ⟨⟨7, false, true, [], ["view_patient"]⟩, some ⟨20, 7, "ghost", "", "", ""⟩⟩
        [] [] = [] ∧
    userProfileAdminGetQueryset
        ⟨⟨7, false, true, [], ["view_patient"]⟩, some ⟨20, 7, "ghost", "", "", ""⟩⟩
        [⟨20, 7, "ghost", "", "", ""⟩] =
      ([⟨20, 7, "ghost", "", "", ""⟩] : List UserProfile).filter
        (fun q => q.userId == (7 : Nat)) ∧
    patientAdminHasViewPermission
        ⟨⟨7, false, true, [], ["view_patient"]⟩, some ⟨20, 7, "ghost", "", "", ""⟩⟩
        none =
      modelAdminDefaultPermission ⟨7, false, true, [], ["view_patient"]⟩
        "patient" "view" :=
  unknown_role_amended
    ⟨⟨7, false, true, [], ["view_patient"]⟩, some ⟨20, 7, "ghost", "", "", ""⟩⟩
    ⟨20, 7, "ghost", "", "", ""⟩ rfl (by decide) rfl [] [] [⟨20, 7, "ghost", "", "", ""⟩]
    none

theorem exists_group_of_mem_fiveRoles {r : String} (h : r ∈ fiveRoles) :
    ∃ g, roleToGroup r = some g := by
  simp only [fiveRoles, List.mem_cons, List.mem_singleton] at h
  rcases h with rfl | rfl | rfl | rfl | rfl | h
  · exact ⟨"Administrators", rfl⟩
  · exact ⟨"Doctors", rfl⟩
  · exact ⟨"Nurses", rfl⟩
  · exact ⟨"Pharmacy", rfl⟩
  · exact ⟨"Patients", rfl⟩
  · exact absurd h (by simp)

/-- Claim C3: after any nonempty sequence of role mutations drawn from the
five roles, each followed by `assign_to_group`, the principal's user belongs
to exactly one group, namely the group named for the current role.  Requires
the profile to be linked to a user (`self.user_id` truthy), as
`assign_to_group` does nothing otherwise. -/
theorem single_group_invariant
    (roles : List String) (pr : UserProfile) (u : DjangoUser)
    (huid : pr.userId ≠ 0) (hne : roles ≠ [])
    (hroles : ∀ r ∈ roles, r ∈ fiveRoles) :
    ∃ g, roleToGroup (applyRoleMutations pr u roles).1.role = some g ∧
      (applyRoleMutations pr u roles).2.groups = [g] := by
  induction roles generalizing pr u with
  | nil => exact absurd rfl hne
  | cons r rest ih =>
      rcases exists_group_of_mem_fiveRoles (hroles r (by simp)) with ⟨g, hg⟩
      cases rest with
      | nil =>
          refine ⟨g, ?_, ?_⟩ <;>
            simp [applyRoleMutations, assignToGroup, hg, huid]
      | cons r2 rest2 =>
          simp only [applyRoleMutations]
          exact ih _ _ huid (by simp)
            (fun s hs => hroles s (List.mem_cons_of_mem r hs))

/-- Witness for `single_group_invariant`: a patient-role profile whose user
starts out in two stale groups, mutated patient → nurse (Scenario C shape). -/
theorem single_group_invariant_witness :
    ∃ g, roleToGroup
        (applyRoleMutations ⟨1, 3, "patient", "", "", ""⟩
          ⟨3, false, false, ["Patients", "Doctors"], []⟩
          ["patient", "nurse"]).1.role = some g ∧
      (applyRoleMutations ⟨1, 3, "patient", "", "", ""⟩
          ⟨3, false, false, ["Patients", "Doctors"], []⟩
          ["patient", "nurse"]).2.groups = [g] :=
  single_group_invariant ["patient", "nurse"] ⟨1, 3, "patient", "", "", ""⟩
    ⟨3, false, false, ["Patients", "Doctors"], []⟩
    (by decide) (by decide) (by decide)

theorem le_foldr_max (l : List Nat) : ∀ x ∈ l, x ≤ l.foldr max 0 := by
  induction l with
  | nil => simp
  | cons a t ih =>
      intro x hx
      rcases List.mem_cons.mp hx with rfl | hx'
      · exact le_max_left _ _
      · exact le_trans (ih x hx') (le_max_right _ _)

theorem assignToGroup_preserves (pr : UserProfile) (u : DjangoUser) :
    (assignToGroup pr u).id = u.id ∧ (assignToGroup pr u).isStaff = u.isStaff := by
  unfold assignToGroup
  cases roleToGroup pr.role with
  | none => exact ⟨rfl, rfl⟩
  | some g => by_cases h : pr.userId ≠ 0 <;> simp [h]

theorem usersUpdate_staffMap (l : List DjangoUser) (uid : Nat)
    (f : DjangoUser → DjangoUser)
    (hf : ∀ u, (f u).id = u.id ∧ (f u).isStaff = u.isStaff) :
    (usersUpdate l uid f).map (fun u => (u.id, u.isStaff)) =
      l.map (fun u => (u.id, u.isStaff)) := by
  induction l with
  | nil => rfl
  | cons a t ih =>
      unfold usersUpdate at ih ⊢
      by_cases h : a.id = uid <;> simp [h, ih, (hf a).1, (hf a).2]

/-- Claim C9: saving a patient-role profile forces the linked user's
`is_staff` to true and auto-creates a linked Patient record with placeholder
data when none exists (leaving the Patient table alone when one does); saving
a profile with any other role changes neither the Patient table nor any
user's `is_staff` flag. -/
theorem patient_profile_save_effects (today : PyDate) (st : SysState)
    (pr : UserProfile) :
    (pr.role = "patient" →
      (∀ u ∈ (userProfileSave today st pr).users, u.id = pr.userId →
        u.isStaff = true) ∧
      ((st.patients.any (fun p => p.userProfile.id = pr.id)) = false →
        cleanDateOfBirth ⟨1990, 1, 1⟩ today = .ok () →
        (userProfileSave today st pr).patients =
          st.patients ++ [⟨freshPatientId st.patients, pr,
            generateMedicalId today.year st.patients, none, ⟨1990, 1, 1⟩, "O",
            "Please update your address", "Please update", "Please update",
            "00000", (if pr.phone = "" then "000-000-0000" else pr.phone)⟩]) ∧
      ((st.patients.any (fun p => p.userProfile.id = pr.id)) = true →
        (userProfileSave today st pr).patients = st.patients)) ∧
    (pr.role ≠ "patient" →
      (userProfileSave today st pr).patients = st.patients ∧
      (userProfileSave today st pr).users.map (fun u => (u.id, u.isStaff)) =
        st.users.map (fun u => (u.id, u.isStaff))) := by
  constructor
  · intro hrole
    refine ⟨?_, ?_, ?_⟩
    · intro u hu huid
      unfold userProfileSave at hu
      simp only [hrole, if_pos] at hu
      rcases List.mem_map.mp hu with ⟨w, _, hwu⟩
      by_cases hw : w.id = pr.userId
      · rw [if_pos hw] at hwu
        by_cases hws : w.isStaff <;> simp [hws] at hwu <;> rw [← hwu]
        exact hws
      · rw [if_neg hw] at hwu
        exact absurd (hwu ▸ huid) hw
    · intro hnone hclean
      unfold userProfileSave
      simp only [hrole, if_pos]
      show ensurePatientRecord today pr st.patients = _
      unfold ensurePatientRecord
      rw [if_pos hrole, if_neg (by simp [hnone])]
      unfold patientSave
      have hfresh : (st.patients.any
          (fun x => x.id = freshPatientId st.patients)) = false := by
        rw [List.any_eq_false]
        intro x hx
        have := le_foldr_max (st.patients.map PatientRec.id) x.id
          (List.mem_map.mpr ⟨x, hx, rfl⟩)
        simp only [decide_eq_true_eq]
        intro hcontra
        rw [hcontra] at this
        exact absurd this (by unfold freshPatientId; omega)
      simp only [hrole, hclean]
      simp [patientsUpsert, hfresh, hrole, hclean]
    · intro hsome
      unfold userProfileSave
      simp only [hrole, if_pos]
      show ensurePatientRecord today pr st.patients = _
      unfold ensurePatientRecord
      rw [if_pos hrole, if_pos hsome]
  · intro hrole
    unfold userProfileSave
    simp only [hrole, if_neg, ite_false]
    exact ⟨by trivial, usersUpdate_staffMap st.users pr.userId (assignToGroup pr)
      (fun u => assignToGroup_preserves pr u)⟩

/-- Witness for `patient_profile_save_effects`: a patient profile saved into a
state with one non-staff user and no Patient rows. -/
theorem patient_profile_save_effects_witness :
    (∀ u ∈ (userProfileSave ⟨2026, 10, 12⟩ ⟨[⟨3, false, false, [], []⟩], [], []⟩
        ⟨10, 3, "patient", "", "", "555"⟩).users, u.id = 3 → u.isStaff = true) ∧
    (userProfileSave ⟨2026, 10, 12⟩ ⟨[⟨3, false, false, [], []⟩], [], []⟩
        ⟨10, 3, "patient", "", "", "555"⟩).patients =
      [] ++ [⟨freshPatientId [], ⟨10, 3, "patient", "", "", "555"⟩,
        generateMedicalId 2026 [], none, ⟨1990, 1, 1⟩, "O",
        "Please update your address", "Please update", "Please update", "00000",
        (if ("555" : String) = "" then "000-000-0000" else "555")⟩] := by
  have h := patient_profile_save_effects ⟨2026, 10, 12⟩
    ⟨[⟨3, false, false, [], []⟩], [], []⟩ ⟨10, 3, "patient", "", "", "555"⟩
  exact ⟨(h.1 rfl).1, (h.1 rfl).2.1 (by decide) (by decide)⟩

/-- Claim C7 fails on the code: a doctor-role profile with an empty license
number is persisted by `UserProfile.save` without any error (the save method
performs no validation), and even `full_clean` passes on such a profile when
it is not being added (`clean` checks `self._state.adding`), so a persisted
profile can violate the license invariant. -/
theorem license_validation_counterexample :
    ((⟨30, 8, "doctor", "Cardiology", "", ""⟩ : UserProfile) ∈
      (userProfileSave ⟨2026, 10, 12⟩ ⟨[⟨8, false, true, [], []⟩], [], []⟩
        ⟨30, 8, "doctor", "Cardiology", "", ""⟩).profiles) ∧
    userProfileClean ⟨30, 8, "doctor", "Cardiology", "", ""⟩ false = .ok () := by
  decide

/-- Claim C7, amended: the license requirement is enforced by validation, not
by the model save, and only while the profile is being added: `clean` on a
medical-staff profile being added with an empty license fails with a
`license_number` error while a patient profile passes; `clean` on any profile
not being added passes; the user-creation form rejects a medical-staff role
with an empty license and accepts the patient role unconditionally.  The
model `save` itself never checks the license, so directly saved or updated
profiles can violate the invariant (see the counterexample). -/
theorem license_validation_amended (pr : UserProfile)
    (department licenseNumber : String) :
    ((pr.role = "doctor" ∨ pr.role = "nurse" ∨ pr.role = "pharmacy") →
      pr.licenseNumber = "" →
      userProfileClean pr true =
        .error ("license_number", "License number is required for medical staff.")) ∧
    (pr.role = "patient" → userProfileClean pr true = .ok ()) ∧
    (userProfileClean pr false = .ok ()) ∧
    ((pr.role = "doctor" ∨ pr.role = "nurse" ∨ pr.role = "pharmacy") →
      ∃ errs, customUserCreationFormClean pr.role department "" = .error errs ∧
        ("license_number", "License number is required for medical staff.") ∈ errs) ∧
    (customUserCreationFormClean "patient" department licenseNumber = .ok ()) := by
  refine ⟨?_, ?_, ?_, ?_, ?_⟩
  · intro hrole hlic
    unfold userProfileClean
    rw [if_pos ⟨hrole, by trivial, hlic⟩]
  · intro hrole
    unfold userProfileClean
    rw [if_neg (by rw [hrole]; simp)]
  · unfold userProfileClean
    rw [if_neg (by simp)]
  · intro hrole
    unfold customUserCreationFormClean
    rcases hrole with h | h | h <;> rw [h] <;> by_cases hd : department = "" <;>
      try subst hd
    · exact ⟨[("license_number", "License number is required for medical staff."),
        ("department", "Department is required for doctors and nurses.")],
        by decide, by decide⟩
    · exact ⟨[("license_number", "License number is required for medical staff.")],
        by simp [hd], by simp⟩
    · exact ⟨[("license_number", "License number is required for medical staff."),
        ("department", "Department is required for doctors and nurses.")],
        by decide, by decide⟩
    · exact ⟨[("license_number", "License number is required for medical staff.")],
        by simp [hd], by simp⟩
    · exact ⟨[("license_number", "License number is required for medical staff.")],
        by decide, by decide⟩
    · exact ⟨[("license_number", "License number is required for medical staff.")],
        by simp [hd], by simp⟩
  · unfold customUserCreationFormClean
    simp

/-- Witness for `license_validation_amended`: a doctor profile with an empty
license number being added, and the patient path of the creation form. -/
theorem license_validation_amended_witness :
    (((⟨30, 8, "doctor", "Cardiology", "", ""⟩ : UserProfile).role = "doctor" ∨
        (⟨30, 8, "doctor", "Cardiology", "", ""⟩ : UserProfile).role = "nurse" ∨
        (⟨30, 8, "doctor", "Cardiology", "", ""⟩ : UserProfile).role = "pharmacy") →
      (⟨30, 8, "doctor", "Cardiology", "", ""⟩ : UserProfile).licenseNumber = "" →
      userProfileClean ⟨30, 8, "doctor", "Cardiology", "", ""⟩ true =
        .error ("license_number", "License number is required for medical staff.")) ∧
    ((⟨30, 8, "doctor", "Cardiology", "", ""⟩ : UserProfile).role = "patient" →
      userProfileClean ⟨30, 8, "doctor", "Cardiology", "", ""⟩ true = .ok ()) ∧
    (userProfileClean ⟨30, 8, "doctor", "Cardiology", "", ""⟩ false = .ok ()) ∧
    (((⟨30, 8, "doctor", "Cardiology", "", ""⟩ : UserProfile).role = "doctor" ∨
        (⟨30, 8, "doctor", "Cardiology", "", ""⟩ : UserProfile).role = "nurse" ∨
        (⟨30, 8, "doctor", "Cardiology", "", ""⟩ : UserProfile).role = "pharmacy") →
      ∃ errs, customUserCreationFormClean
          (⟨30, 8, "doctor", "Cardiology", "", ""⟩ : UserProfile).role
          "Cardiology" "" = .error errs ∧
        ("license_number", "License number is required for medical staff.") ∈ errs) ∧
    (customUserCreationFormClean "patient" "Cardiology" "" = .ok ()) :=
  license_validation_amended ⟨30, 8, "doctor", "Cardiology", "", ""⟩ "Cardiology" ""

/-- Claim C8 evaluated at its failing input: `Patient.save` as committed
performs no check on `assigned_doctor`, so saving a Patient whose
`assigned_doctor` is an admin-role (non-doctor) profile succeeds and persists
the assignment, although the claim and the repository's own test
(`test_models.py::test_patient_assigned_doctor_validation`) require a
synchronous `ValidationError`. -/
theorem assigned_doctor_unvalidated_at_save :
    patientSave ⟨2026, 10, 12⟩ []
        ⟨1, ⟨11, 3, "patient", "", "", ""⟩, "PMR-2026-000001",
          some ⟨12, 4, "admin", "", "", ""⟩, ⟨1990, 1, 1⟩, "O", "a", "c", "s",
          "00000", "+15550000000"⟩ =
      .ok [⟨1, ⟨11, 3, "patient", "", "", ""⟩, "PMR-2026-000001",
          some ⟨12, 4, "admin", "", "", ""⟩, ⟨1990, 1, 1⟩, "O", "a", "c", "s",
          "00000", "+15550000000"⟩] ∧
    (⟨12, 4, "admin", "", "", ""⟩ : UserProfile).role ≠ "doctor" := by
  decide

/-- Claim C4: across any sequence of emergency-contact creations and updates,
after each completed save at most one contact of each patient is primary; and
saving a new primary contact `c2` while `c1` is the stored primary of the same
patient demotes `c1` and persists `c2` as primary within the same write. -/
theorem primary_contact_uniqueness
    (ops : List EmergencyContact) (db : List EmergencyContact)
    (c1 c2 : EmergencyContact)
    (hc1 : c1 ∈ db) (hc1p : c1.isPrimaryContact = true)
    (hc2p : c2.isPrimaryContact = true) (hpid : c1.patientId = c2.patientId)
    (hnew : ∀ x ∈ db, x.id ≠ c2.id) :
    AtMostOnePrimary (ops.foldl emergencyContactSave []) ∧
      { c1 with isPrimaryContact := false } ∈ emergencyContactSave db c2 ∧
      c2 ∈ emergencyContactSave db c2 := by
  refine ⟨atMostOnePrimary_foldl ops [] (by intro x hx; simp at hx), ?_, ?_⟩
  · unfold emergencyContactSave contactsUpsert
    have hdem : { c1 with isPrimaryContact := false } ∈ db.map (demoteOthers c2) := by
      refine List.mem_map.mpr ⟨c1, hc1, ?_⟩
      unfold demoteOthers
      rw [if_pos ⟨hpid, by simp [hc1p], hnew c1 hc1⟩]
    have hids : ((if c2.isPrimaryContact then db.map (demoteOthers c2) else db).any
        (fun x => x.id = c2.id)) = false := by
      simp only [hc2p, if_pos, List.any_eq_false]
      intro x hx
      rcases List.mem_map.mp hx with ⟨w, hw, hwx⟩
      have : x.id = w.id := by
        unfold demoteOthers at hwx
        by_cases hc : w.patientId = c2.patientId ∧ w.isPrimaryContact ∧ w.id ≠ c2.id <;>
          simp [hc] at hwx <;> simp [← hwx]
      simp [this, hnew w hw]
    rw [hids]
    simp only [Bool.false_eq_true, if_false]
    exact List.mem_append.mpr (Or.inl (by simpa [hc2p] using hdem))
  · exact self_mem_contactsUpsert _ c2

/-- Witness for `primary_contact_uniqueness` at a concrete database: one
stored primary contact, a fresh second primary contact for the same patient. -/
theorem primary_contact_uniqueness_witness :
    AtMostOnePrimary
        (([⟨1, 5, "Ann", "spouse", "+15550001111", true⟩] :
          List EmergencyContact).foldl emergencyContactSave []) ∧
      ({ (⟨1, 5, "Ann", "spouse", "+15550001111", true⟩ : EmergencyContact) with
          isPrimaryContact := false } ∈
        emergencyContactSave [⟨1, 5, "Ann", "spouse", "+15550001111", true⟩]
          ⟨2, 5, "Bob", "parent", "+15550002222", true⟩) ∧
      (⟨2, 5, "Bob", "parent", "+15550002222", true⟩ : EmergencyContact) ∈
        emergencyContactSave [⟨1, 5, "Ann", "spouse", "+15550001111", true⟩]
          ⟨2, 5, "Bob", "parent", "+15550002222", true⟩ :=
  primary_contact_uniqueness
    [⟨1, 5, "Ann", "spouse", "+15550001111", true⟩]
    [⟨1, 5, "Ann", "spouse", "+15550001111", true⟩]
    ⟨1, 5, "Ann", "spouse", "+15550001111", true⟩
    ⟨2, 5, "Bob", "parent", "+15550002222", true⟩
    (by decide) (by decide) (by decide) (by decide) (by decide)

theorem decimalCharsAux_fuel :
    ∀ f1 f2 n, n ≤ f1 → n ≤ f2 → decimalCharsAux f1 n = decimalCharsAux f2 n := by
  intro f1
  induction f1 with
  | zero =>
      intro f2 n h1 _
      interval_cases n
      cases f2 with
      | zero => rfl
      | succ g => simp [decimalCharsAux]
  | succ f ih =>
      intro f2 n h1 h2
      cases f2 with
      | zero =>
          interval_cases n
          simp [decimalCharsAux]
      | succ g =>
          unfold decimalCharsAux
          by_cases hn : n < 10
          · simp [hn]
          · rw [if_neg hn, if_neg hn]
            have hd : n / 10 < n := Nat.div_lt_self (by omega) (by omega)
            rw [ih g (n / 10) (by omega) (by omega)]

theorem decimalChars_eq_of_lt {n : Nat} (h : n < 10) :
    decimalChars n = [pyDigitChar n] := by
  unfold decimalChars
  cases n with
  | zero => rfl
  | succ k => unfold decimalCharsAux; rw [if_pos h]

theorem decimalChars_eq_of_ge {n : Nat} (h : 10 ≤ n) :
    decimalChars n = decimalChars (n / 10) ++ [pyDigitChar (n % 10)] := by
  obtain ⟨k, rfl⟩ : ∃ k, n = k + 1 := ⟨n - 1, by omega⟩
  unfold decimalChars
  simp only [decimalCharsAux]
  rw [if_neg (by omega)]
  have hd : (k + 1) / 10 ≤ k := by
    have := Nat.div_lt_self (n := k + 1) (by omega) (show 1 < 10 by omega)
    omega
  rw [decimalCharsAux_fuel k ((k + 1) / 10) ((k + 1) / 10) hd le_rfl]

theorem pyDigitChar_lt_iff {a b : Nat} (ha : a < 10) (hb : b < 10) :
    (pyDigitChar a < pyDigitChar b ↔ a < b) := by
  have h : ∀ x y : Fin 10, (pyDigitChar x.val < pyDigitChar y.val ↔ x.val < y.val) := by
    decide
  exact h ⟨a, ha⟩ ⟨b, hb⟩

theorem pyDigitChar_eq_iff {a b : Nat} (ha : a < 10) (hb : b < 10) :
    (pyDigitChar a = pyDigitChar b ↔ a = b) := by
  have h : ∀ x y : Fin 10, (pyDigitChar x.val = pyDigitChar y.val ↔ x.val = y.val) := by
    decide
  exact h ⟨a, ha⟩ ⟨b, hb⟩

theorem pyDigitChar_toNat {a : Nat} (ha : a < 10) :
    (pyDigitChar a).toNat = 48 + a := by
  have h : ∀ x : Fin 10, (pyDigitChar x.val).toNat = 48 + x.val := by decide
  exact h ⟨a, ha⟩

theorem pyDigitChar_ne_dash {a : Nat} (ha : a < 10) : pyDigitChar a ≠ '-' := by
  have h : ∀ x : Fin 10, pyDigitChar x.val ≠ '-' := by decide
  exact h ⟨a, ha⟩

theorem dash_not_mem_decimalChars (n : Nat) : '-' ∉ decimalChars n := by
  induction n using Nat.strong_induction_on with
  | _ n ih =>
      by_cases h : n < 10
      · rw [decimalChars_eq_of_lt h]
        simp [(pyDigitChar_ne_dash h).symm]
      · rw [decimalChars_eq_of_ge (by omega)]
        intro hmem
        rcases List.mem_append.mp hmem with hmem | hmem
        · exact ih (n / 10) (Nat.div_lt_self (by omega) (by omega)) hmem
        · simp at hmem
          exact pyDigitChar_ne_dash (Nat.mod_lt n (by omega)) hmem.symm

theorem decimalChars_length_le :
    ∀ k n, n < 10 ^ (k + 1) → (decimalChars n).length ≤ k + 1 := by
  intro k
  induction k with
  | zero =>
      intro n h
      rw [decimalChars_eq_of_lt (by simpa using h)]
      simp
  | succ k ih =>
      intro n h
      by_cases hn : n < 10
      · rw [decimalChars_eq_of_lt hn]
        simp only [List.length_singleton]
        omega
      · rw [decimalChars_eq_of_ge (by omega)]
        have hb : n / 10 < 10 ^ (k + 1) := by
          rw [Nat.div_lt_iff_lt_mul (by omega)]
          calc n < 10 ^ (k + 2) := h
          _ = 10 ^ (k + 1) * 10 := by ring
        have := ih (n / 10) hb
        rw [List.length_append]
        simp only [List.length_singleton]
        omega

theorem decimalChars_length_eq :
    ∀ k n, 10 ^ k ≤ n → n < 10 ^ (k + 1) → (decimalChars n).length = k + 1 := by
  intro k
  induction k with
  | zero =>
      intro n h1 h2
      rw [decimalChars_eq_of_lt (by simpa using h2)]
      rfl
  | succ k ih =>
      intro n h1 h2
      have h10 : 10 ≤ n := by
        calc (10 : Nat) = 10 ^ 1 := by ring
        _ ≤ 10 ^ (k + 1) := Nat.pow_le_pow_right (by omega) (by omega)
        _ ≤ n := h1
      rw [decimalChars_eq_of_ge h10]
      have hlo : 10 ^ k ≤ n / 10 := by
        rw [Nat.le_div_iff_mul_le (by omega)]
        calc 10 ^ k * 10 = 10 ^ (k + 1) := by ring
        _ ≤ n := h1
      have hhi : n / 10 < 10 ^ (k + 1) := by
        rw [Nat.div_lt_iff_lt_mul (by omega)]
        calc n < 10 ^ (k + 2) := h2
        _ = 10 ^ (k + 1) * 10 := by ring
      rw [List.length_append, ih (n / 10) hlo hhi]
      rfl

theorem digitsBE_zero (k : Nat) : digitsBE k 0 = List.replicate k '0' := by
  induction k with
  | zero => rfl
  | succ k ih =>
      unfold digitsBE
      rw [Nat.zero_div, Nat.zero_mod, ih, List.replicate_succ']
      rfl

theorem digitsBE_succ_of_lt :
    ∀ k n, n < 10 ^ k → digitsBE (k + 1) n = '0' :: digitsBE k n := by
  intro k
  induction k with
  | zero =>
      intro n h
      interval_cases n
      rfl
  | succ k ih =>
      intro n h
      show digitsBE (k + 2) n = _
      unfold digitsBE
      have hb : n / 10 < 10 ^ k := by
        rw [Nat.div_lt_iff_lt_mul (by omega)]
        calc n < 10 ^ (k + 1) := h
        _ = 10 ^ k * 10 := by ring
      rw [ih (n / 10) hb]
      rfl

theorem padReplicate :
    ∀ k n, n < 10 ^ (k + 1) →
      List.replicate ((k + 1) - (decimalChars n).length) '0' ++ decimalChars n =
        digitsBE (k + 1) n := by
  intro k
  induction k with
  | zero =>
      intro n h
      have h10 : n < 10 := by simpa using h
      rw [decimalChars_eq_of_lt h10]
      show _ = digitsBE 1 n
      unfold digitsBE
      rw [Nat.mod_eq_of_lt h10]
      rfl
  | succ k ih =>
      intro n h
      by_cases hn : n < 10 ^ (k + 1)
      · have hlen : (decimalChars n).length ≤ k + 1 := decimalChars_length_le k n hn
        have : (k + 2) - (decimalChars n).length =
            ((k + 1) - (decimalChars n).length) + 1 := by omega
        rw [this, List.replicate_succ, List.cons_append, ih n hn,
          digitsBE_succ_of_lt (k + 1) n hn]
      · have hlen : (decimalChars n).length = k + 2 :=
          decimalChars_length_eq (k + 1) n (by omega) h
        rw [hlen]
        simp only [Nat.sub_self, List.replicate, List.nil_append]
        have h10 : 10 ≤ n := by
          calc (10 : Nat) = 10 ^ 1 := by ring
          _ ≤ 10 ^ (k + 1) := Nat.pow_le_pow_right (by omega) (by omega)
          _ ≤ n := by omega
        rw [decimalChars_eq_of_ge h10]
        show _ = digitsBE (k + 2) n
        unfold digitsBE
        have hlo : 10 ^ k ≤ n / 10 := by
          rw [Nat.le_div_iff_mul_le (by omega)]
          calc 10 ^ k * 10 = 10 ^ (k + 1) := by ring
          _ ≤ n := by omega
        have hhi : n / 10 < 10 ^ (k + 1) := by
          rw [Nat.div_lt_iff_lt_mul (by omega)]
          calc n < 10 ^ (k + 2) := h
          _ = 10 ^ (k + 1) * 10 := by ring
        have := ih (n / 10) hhi
        rw [decimalChars_length_eq k (n / 10) hlo hhi] at this
        simpa using this

theorem pad6_eq_digitsBE {n : Nat} (h : n < 10 ^ 6) : pad6 n = digitsBE 6 n := by
  unfold pad6
  exact padReplicate 5 n h

theorem digitsBE_head :
    ∀ k n, n < 10 ^ (k + 1) →
      digitsBE (k + 1) n = pyDigitChar (n / 10 ^ k) :: digitsBE k (n % 10 ^ k) := by
  intro k
  induction k with
  | zero =>
      intro n h
      have h10 : n < 10 := by simpa using h
      show digitsBE 1 n = _
      unfold digitsBE
      simp [digitsBE, Nat.mod_eq_of_lt h10]
  | succ k ih =>
      intro n h
      have hb : n / 10 < 10 ^ (k + 1) := by
        rw [Nat.div_lt_iff_lt_mul (by omega)]
        calc n < 10 ^ (k + 2) := h
        _ = 10 ^ (k + 1) * 10 := by ring
      show digitsBE (k + 2) n = _
      unfold digitsBE
      rw [ih (n / 10) hb]
      have h1 : n / 10 / 10 ^ k = n / 10 ^ (k + 1) := by
        rw [Nat.div_div_eq_div_mul]
        congr 1
        ring
      have h2 : n / 10 % 10 ^ k = n % 10 ^ (k + 1) / 10 := by
        have hh := Nat.mod_mul_right_div_self n 10 (10 ^ k)
        rw [show (10 : Nat) * 10 ^ k = 10 ^ (k + 1) by ring] at hh
        omega
      have h3 : n % 10 = n % 10 ^ (k + 1) % 10 := by
        rw [Nat.mod_mod_of_dvd n (Dvd.intro_left (10 ^ k) (by ring))]
      rw [h1, h2, h3]
      rfl

theorem lex_cons_iff' {x y : Char} {xs ys : List Char} :
    List.Lex (· < ·) (x :: xs) (y :: ys) ↔
      x < y ∨ (x = y ∧ List.Lex (· < ·) xs ys) := by
  constructor
  · intro h
    cases h with
    | cons h' => exact Or.inr ⟨rfl, h'⟩
    | rel hr => exact Or.inl hr
  · rintro (hr | ⟨rfl, h⟩)
    · exact List.Lex.rel hr
    · exact List.Lex.cons h

theorem div_mod_lt_iff {m : Nat} (a b : Nat) (_hm : 0 < m) :
    (a / m < b / m ∨ (a / m = b / m ∧ a % m < b % m)) ↔ a < b := by
  have key : ∀ x y : Nat, x / m < y / m → x < y := by
    intro x y hxy
    by_contra hc
    push_neg at hc
    have hdd : y / m ≤ x / m := Nat.div_le_div_right hc
    omega
  have ha := Nat.div_add_mod a m
  have hb := Nat.div_add_mod b m
  constructor
  · rintro (h | ⟨hq, hr⟩)
    · exact key a b h
    · rw [← ha, ← hb, hq]
      exact Nat.add_lt_add_left hr _
  · intro hab
    rcases Nat.lt_trichotomy (a / m) (b / m) with h | h | h
    · exact Or.inl h
    · refine Or.inr ⟨h, ?_⟩
      by_contra hr
      push_neg at hr
      have : b ≤ a := by
        rw [← ha, ← hb, h]
        exact Nat.add_le_add_left hr _
      omega
    · exact absurd (key b a h) (by omega)

theorem digitsBE_lex_iff :
    ∀ k a b, a < 10 ^ k → b < 10 ^ k →
      (List.Lex (· < ·) (digitsBE k a) (digitsBE k b) ↔ a < b) := by
  intro k
  induction k with
  | zero =>
      intro a b ha hb
      interval_cases a
      interval_cases b
      show List.Lex (· < ·) (digitsBE 0 0) (digitsBE 0 0) ↔ _
      unfold digitsBE
      simp [List.Lex.not_nil_right]
  | succ k ih =>
      intro a b ha hb
      have hpow : 0 < 10 ^ k := pow_pos (by omega) k
      have hda : a / 10 ^ k < 10 := by
        rw [Nat.div_lt_iff_lt_mul hpow]
        calc a < 10 ^ (k + 1) := ha
        _ = 10 * 10 ^ k := by ring
      have hdb : b / 10 ^ k < 10 := by
        rw [Nat.div_lt_iff_lt_mul hpow]
        calc b < 10 ^ (k + 1) := hb
        _ = 10 * 10 ^ k := by ring
      have hma : a % 10 ^ k < 10 ^ k := Nat.mod_lt a hpow
      have hmb : b % 10 ^ k < 10 ^ k := Nat.mod_lt b hpow
      rw [digitsBE_head k a ha, digitsBE_head k b hb, lex_cons_iff',
        pyDigitChar_lt_iff hda hdb, pyDigitChar_eq_iff hda hdb,
        ih (a % 10 ^ k) (b % 10 ^ k) hma hmb]
      exact div_mod_lt_iff a b hpow

theorem lex_append_left_iff (p : List Char) {a b : List Char} :
    List.Lex (· < ·) (p ++ a) (p ++ b) ↔ List.Lex (· < ·) a b := by
  induction p with
  | nil => exact Iff.rfl
  | cons c p ih =>
      simp only [List.cons_append]
      rw [List.Lex.cons_iff]
      exact ih

theorem mkMedicalId_lt_iff (year : Nat) {a b : Nat} (ha : a < 10 ^ 6)
    (hb : b < 10 ^ 6) : (mkMedicalId year a < mkMedicalId year b ↔ a < b) := by
  have hbridge : ∀ x y : List Char, x < y ↔ List.Lex (· < ·) x y := fun _ _ =>
    Iff.rfl
  rw [String.lt_iff_toList_lt]
  show ("PMR-".data ++ decimalChars year ++ '-' :: pad6 a) <
      ("PMR-".data ++ decimalChars year ++ '-' :: pad6 b) ↔ _
  rw [hbridge]
  have hsplit : ∀ l : List Char,
      "PMR-".data ++ decimalChars year ++ '-' :: l =
        ("PMR-".data ++ decimalChars year ++ ['-']) ++ l := by
    intro l
    simp
  rw [hsplit (pad6 a), hsplit (pad6 b),
    lex_append_left_iff ("PMR-".data ++ decimalChars year ++ ['-']),
    pad6_eq_digitsBE ha, pad6_eq_digitsBE hb]
  exact digitsBE_lex_iff 6 a b ha hb

theorem mkMedicalId_le_iff (year : Nat) {a b : Nat} (ha : a < 10 ^ 6)
    (hb : b < 10 ^ 6) : (mkMedicalId year a ≤ mkMedicalId year b ↔ a ≤ b) := by
  rw [← not_lt, ← not_lt, mkMedicalId_lt_iff year hb ha]

theorem foldr_max_mem : ∀ l : List Nat, l ≠ [] → l.foldr max 0 ∈ l := by
  intro l
  induction l with
  | nil => intro h; exact absurd rfl h
  | cons a t ih =>
      intro _
      cases t with
      | nil => simp
      | cons b t2 =>
          show max a ((b :: t2).foldr max 0) ∈ _
          rcases max_choice a ((b :: t2).foldr max 0) with h | h
          · rw [h]; exact List.mem_cons_self a _
          · rw [h]; exact List.mem_cons_of_mem a (ih (by simp))

theorem maxString_spec : ∀ l : List String, l ≠ [] →
    ∃ m, maxString l = some m ∧ m ∈ l ∧ ∀ x ∈ l, x ≤ m := by
  intro l
  induction l with
  | nil => intro h; exact absurd rfl h
  | cons s rest ih =>
      intro _
      cases rest with
      | nil =>
          refine ⟨s, rfl, by simp, ?_⟩
          intro x hx
          simp at hx
          rw [hx]
      | cons s2 rest2 =>
          rcases ih (by simp) with ⟨m, hm, hmem, hle⟩
          refine ⟨if m < s then s else m, ?_, ?_, ?_⟩
          · show (match maxString (s2 :: rest2) with
              | none => some s
              | some t => some (if t < s then s else t)) =
              some (if m < s then s else m)
            rw [hm]
          · by_cases hc : m < s
            · simp [hc]
            · rw [if_neg hc]
              exact List.mem_cons_of_mem s hmem
          · intro x hx
            rcases List.mem_cons.mp hx with hx1 | hx'
            · rw [hx1]
              by_cases hc : m < s
              · rw [if_pos hc]
              · rw [if_neg hc]
                exact le_of_not_lt hc
            · have hxm := hle x hx'
              by_cases hc : m < s
              · rw [if_pos hc]
                exact le_trans hxm (le_of_lt hc)
              · rw [if_neg hc]
                exact hxm

theorem maxString_map_mkMedicalId (year : Nat) (seqs : List Nat)
    (hne : seqs ≠ []) (hbound : ∀ s ∈ seqs, s < 10 ^ 6) :
    maxString (seqs.map (mkMedicalId year)) =
      some (mkMedicalId year (seqs.foldr max 0)) := by
  rcases maxString_spec (seqs.map (mkMedicalId year)) (by simpa using hne) with
    ⟨m, hm, hmem, hle⟩
  rcases List.mem_map.mp hmem with ⟨s0, hs0, rfl⟩
  have hMmem : seqs.foldr max 0 ∈ seqs := foldr_max_mem seqs hne
  have h1 : s0 ≤ seqs.foldr max 0 := le_foldr_max seqs s0 hs0
  have h2 : mkMedicalId year (seqs.foldr max 0) ≤ mkMedicalId year s0 :=
    hle _ (List.mem_map.mpr ⟨_, hMmem, rfl⟩)
  have h3 : seqs.foldr max 0 ≤ s0 :=
    (mkMedicalId_le_iff year (hbound _ hMmem) (hbound _ hs0)).mp h2
  rw [hm, le_antisymm h1 h3]

theorem splitDash_ne_nil : ∀ l : List Char, splitDash l ≠ [] := by
  intro l
  induction l with
  | nil => simp [splitDash]
  | cons c cs ih =>
      unfold splitDash
      by_cases h : c = '-'
      · simp [h]
      · rw [if_neg h]
        cases hs : splitDash cs with
        | nil => simp
        | cons a t => simp

theorem splitDash_no_dash : ∀ l : List Char, '-' ∉ l → splitDash l = [l] := by
  intro l
  induction l with
  | nil => intro _; rfl
  | cons c cs ih =>
      intro h
      have hc : c ≠ '-' := fun hcc => h (by simp [hcc])
      have hcs : '-' ∉ cs := fun hmem => h (List.mem_cons_of_mem c hmem)
      unfold splitDash
      rw [if_neg hc, ih hcs]

theorem splitDash_cons_ne (c : Char) (cs : List Char) (hc : c ≠ '-') :
    splitDash (c :: cs) =
      match splitDash cs with
      | [] => [[c]]
      | h :: t => (c :: h) :: t := by
  show (if c = '-' then [] :: splitDash cs else
    match splitDash cs with
    | [] => [[c]]
    | h :: t => (c :: h) :: t) = _
  rw [if_neg hc]

theorem splitDash_append :
    ∀ (a b : List Char), '-' ∉ a → splitDash (a ++ '-' :: b) = a :: splitDash b := by
  intro a
  induction a with
  | nil =>
      intro b _
      exact rfl
  | cons c a' ih =>
      intro b h
      have hc : c ≠ '-' := fun hcc => h (by simp [hcc])
      have ha' : '-' ∉ a' := fun hmem => h (List.mem_cons_of_mem c hmem)
      show splitDash (c :: (a' ++ '-' :: b)) = _
      rw [splitDash_cons_ne c _ hc, ih b ha']

theorem dash_not_mem_pad6 (n : Nat) : '-' ∉ pad6 n := by
  unfold pad6
  intro h
  rcases List.mem_append.mp h with h | h
  · have := List.eq_of_mem_replicate h
    simp at this
  · exact dash_not_mem_decimalChars n h

theorem splitDash_mkMedicalId (year s : Nat) :
    (splitDash (mkMedicalId year s).data).getLastD [] = pad6 s := by
  show (splitDash ("PMR-".data ++ decimalChars year ++ '-' :: pad6 s)).getLastD [] = _
  have harr : "PMR-".data ++ decimalChars year ++ '-' :: pad6 s =
      ['P', 'M', 'R'] ++ '-' :: (decimalChars year ++ '-' :: pad6 s) := by
    show ['P', 'M', 'R', '-'] ++ decimalChars year ++ '-' :: pad6 s = _
    simp
  rw [harr, splitDash_append ['P', 'M', 'R'] _ (by decide),
    splitDash_append (decimalChars year) _ (dash_not_mem_decimalChars year),
    splitDash_no_dash (pad6 s) (dash_not_mem_pad6 s)]
  rfl

theorem digitsVal_append_singleton (l : List Char) (c : Char) :
    digitsVal (l ++ [c]) = 10 * digitsVal l + (c.toNat - 48) := by
  unfold digitsVal
  rw [List.foldl_append]
  rfl

theorem digitsVal_decimalChars (n : Nat) : digitsVal (decimalChars n) = n := by
  induction n using Nat.strong_induction_on with
  | _ n ih =>
      by_cases h : n < 10
      · rw [decimalChars_eq_of_lt h]
        show 10 * 0 + ((pyDigitChar n).toNat - 48) = n
        rw [pyDigitChar_toNat h]
        omega
      · rw [decimalChars_eq_of_ge (by omega), digitsVal_append_singleton,
          ih (n / 10) (Nat.div_lt_self (by omega) (by omega)),
          pyDigitChar_toNat (Nat.mod_lt n (by omega))]
        omega

theorem digitsVal_replicate_zero :
    ∀ (k : Nat) (l : List Char),
      digitsVal (List.replicate k '0' ++ l) = digitsVal l := by
  intro k
  induction k with
  | zero => intro l; rfl
  | succ k ih =>
      intro l
      rw [List.replicate_succ, List.cons_append]
      have hstep : digitsVal ('0' :: (List.replicate k '0' ++ l)) =
          digitsVal (List.replicate k '0' ++ l) := rfl
      rw [hstep, ih l]

theorem digitsVal_pad6 (n : Nat) : digitsVal (pad6 n) = n := by
  unfold pad6
  rw [digitsVal_replicate_zero, digitsVal_decimalChars]

theorem patientSave_generated (today : PyDate) (db : List PatientRec)
    (p : PatientRec) (hid : p.medicalId = "")
    (hrole : p.userProfile.role = "patient")
    (hdob : cleanDateOfBirth p.dateOfBirth today = .ok ()) :
    patientSave today db p =
      .ok (patientsUpsert db { p with medicalId := generateMedicalId today.year db }) := by
  unfold patientSave
  rw [if_pos hid,
    if_neg (show ¬(({ p with medicalId := generateMedicalId today.year db } :
      PatientRec).userProfile.role ≠ "patient") from by
        show ¬(p.userProfile.role ≠ "patient")
        simp [hrole]),
    show cleanDateOfBirth ({ p with medicalId := generateMedicalId today.year db } :
      PatientRec).dateOfBirth today = Except.ok () from hdob]

/-- Claim C10: a Patient saved with an empty `medical_id` gets one of the form
`PMR-<year>-<seq:06d>`, where `seq` is 1 when the year has no existing
patients and the maximum existing sequence plus one otherwise; provided every
existing id with this year's front is a canonical six-digit id, the new id is
strictly greater than, and distinct from, every existing one. -/
theorem medical_id_generation (today : PyDate) (db : List PatientRec)
    (p : PatientRec) (seqs : List Nat)
    (hid : p.medicalId = "")
    (hrole : p.userProfile.role = "patient")
    (hdob : cleanDateOfBirth p.dateOfBirth today = .ok ())
    (hfilter : (db.map PatientRec.medicalId).filter
        (fun s => charsHavePref ("PMR-".data ++ decimalChars today.year ++ ['-']) s.data)
      = seqs.map (mkMedicalId today.year))
    (hbound : ∀ s ∈ seqs, 1 ≤ s ∧ s < 999999) :
    ∃ newSeq,
      generateMedicalId today.year db = mkMedicalId today.year newSeq ∧
      (seqs = [] → newSeq = 1) ∧
      (seqs ≠ [] → newSeq = seqs.foldr max 0 + 1) ∧
      (∀ s ∈ seqs, s < newSeq) ∧
      mkMedicalId today.year newSeq ∉ seqs.map (mkMedicalId today.year) ∧
      patientSave today db p =
        .ok (patientsUpsert db { p with medicalId := mkMedicalId today.year newSeq }) := by
  have hsave := patientSave_generated today db p hid hrole hdob
  rcases eq_or_ne seqs [] with hcase | hcase
  · subst hcase
    have hgen : generateMedicalId today.year db = mkMedicalId today.year 1 := by
      unfold generateMedicalId
      rw [hfilter]
      rfl
    exact ⟨1, hgen, fun _ => rfl, fun h => absurd rfl h, by simp, by simp,
      by rw [hsave, hgen]⟩
  · have hb6 : ∀ s ∈ seqs, s < 10 ^ 6 := by
      intro s hs
      have := (hbound s hs).2
      have hp : (10 : Nat) ^ 6 = 1000000 := by norm_num
      omega
    have hM : seqs.foldr max 0 ∈ seqs := foldr_max_mem seqs hcase
    have hM9 : seqs.foldr max 0 < 999999 := (hbound _ hM).2
    have hM6 : seqs.foldr max 0 + 1 < 10 ^ 6 := by
      have hp : (10 : Nat) ^ 6 = 1000000 := by norm_num
      omega
    have hgen : generateMedicalId today.year db =
        mkMedicalId today.year (seqs.foldr max 0 + 1) := by
      unfold generateMedicalId
      rw [hfilter, maxString_map_mkMedicalId today.year seqs hcase hb6]
      show mkMedicalId today.year
          (digitsVal ((splitDash
            (mkMedicalId today.year (seqs.foldr max 0)).data).getLastD []) + 1) = _
      rw [splitDash_mkMedicalId, digitsVal_pad6]
    refine ⟨seqs.foldr max 0 + 1, hgen, fun h => absurd h hcase, fun _ => rfl,
      ?_, ?_, by rw [hsave, hgen]⟩
    · intro s hs
      have := le_foldr_max seqs s hs
      omega
    · intro hmem
      rcases List.mem_map.mp hmem with ⟨s, hs, heq⟩
      have hlt : s < seqs.foldr max 0 + 1 := by
        have := le_foldr_max seqs s hs
        omega
      have hstr : mkMedicalId today.year s <
          mkMedicalId today.year (seqs.foldr max 0 + 1) :=
        (mkMedicalId_lt_iff today.year (hb6 s hs) hM6).mpr hlt
      rw [heq] at hstr
      exact lt_irrefl _ hstr

/-- Witness for `medical_id_generation`: year 2026 with existing sequences 4
and 7 (plus a 2025 id that the year filter drops); the generated id is
`PMR-2026-000008`. -/
theorem medical_id_generation_witness :
    ∃ newSeq,
      generateMedicalId 2026
          [⟨1, ⟨10, 2, "patient", "", "", ""⟩, "PMR-2026-000004", none,
            ⟨1990, 1, 1⟩, "O", "a", "c", "s", "00000", "+15550000001"⟩,
           ⟨2, ⟨11, 3, "patient", "", "", ""⟩, "PMR-2025-000009", none,
            ⟨1991, 2, 2⟩, "F", "a", "c", "s", "00000", "+15550000002"⟩,
           ⟨3, ⟨12, 4, "patient", "", "", ""⟩, "PMR-2026-000007", none,
            ⟨1992, 3, 3⟩, "M", "a", "c", "s", "00000", "+15550000003"⟩] =
        mkMedicalId 2026 newSeq ∧
      (([4, 7] : List Nat) = [] → newSeq = 1) ∧
      (([4, 7] : List Nat) ≠ [] → newSeq = ([4, 7] : List Nat).foldr max 0 + 1) ∧
      (∀ s ∈ ([4, 7] : List Nat), s < newSeq) ∧
      mkMedicalId 2026 newSeq ∉ ([4, 7] : List Nat).map (mkMedicalId 2026) ∧
      patientSave ⟨2026, 10, 12⟩
          [⟨1, ⟨10, 2, "patient", "", "", ""⟩, "PMR-2026-000004", none,
            ⟨1990, 1, 1⟩, "O", "a", "c", "s", "00000", "+15550000001"⟩,
           ⟨2, ⟨11, 3, "patient", "", "", ""⟩, "PMR-2025-000009", none,
            ⟨1991, 2, 2⟩, "F", "a", "c", "s", "00000", "+15550000002"⟩,
           ⟨3, ⟨12, 4, "patient", "", "", ""⟩, "PMR-2026-000007", none,
            ⟨1992, 3, 3⟩, "M", "a", "c", "s", "00000", "+15550000003"⟩]
          ⟨4, ⟨13, 5, "patient", "", "", ""⟩, "", none, ⟨1993, 4, 4⟩, "P",
            "a", "c", "s", "00000", "+15550000004"⟩ =
        .ok (patientsUpsert
          [⟨1, ⟨10, 2, "patient", "", "", ""⟩, "PMR-2026-000004", none,
            ⟨1990, 1, 1⟩, "O", "a", "c", "s", "00000", "+15550000001"⟩,
           ⟨2, ⟨11, 3, "patient", "", "", ""⟩, "PMR-2025-000009", none,
            ⟨1991, 2, 2⟩, "F", "a", "c", "s", "00000", "+15550000002"⟩,
           ⟨3, ⟨12, 4, "patient", "", "", ""⟩, "PMR-2026-000007", none,
            ⟨1992, 3, 3⟩, "M", "a", "c", "s", "00000", "+15550000003"⟩]
          { (⟨4, ⟨13, 5, "patient", "", "", ""⟩, "", none, ⟨1993, 4, 4⟩, "P",
              "a", "c", "s", "00000", "+15550000004"⟩ : PatientRec) with
            medicalId := mkMedicalId 2026 newSeq }) :=
  medical_id_generation ⟨2026, 10, 12⟩
    [⟨1, ⟨10, 2, "patient", "", "", ""⟩, "PMR-2026-000004", none,
      ⟨1990, 1, 1⟩, "O", "a", "c", "s", "00000", "+15550000001"⟩,
     ⟨2, ⟨11, 3, "patient", "", "", ""⟩, "PMR-2025-000009", none,
      ⟨1991, 2, 2⟩, "F", "a", "c", "s", "00000", "+15550000002"⟩,
     ⟨3, ⟨12, 4, "patient", "", "", ""⟩, "PMR-2026-000007", none,
      ⟨1992, 3, 3⟩, "M", "a", "c", "s", "00000", "+15550000003"⟩]
    ⟨4, ⟨13, 5, "patient", "", "", ""⟩, "", none, ⟨1993, 4, 4⟩, "P",
      "a", "c", "s", "00000", "+15550000004"⟩
    [4, 7] rfl rfl (by decide) (by decide) (by decide)

end PMS
